import Mathlib

/-!
Verification of the print-job feature of Spoolman: a shallow embedding of
`spoolman/database/print_job.py` and `spoolman/api/v1/print_job.py`
(data model, create / get_by_id / find / update / delete, and the
change-notification publication), with theorems checking the
natural-language specification against it.

Python floats are modelled as rationals (ℚ); datetimes as a wall-clock
integer together with an optional UTC-offset (timezone-aware vs naive);
the database as an in-memory list of records; async functions as pure
functions returning `Except`; the commit / websocket-publish side effects
as an explicit trace of actions.
-/

namespace Spoolman

/-- A Python `datetime`: a wall-clock value and, when timezone-aware, the
offset of that wall clock from UTC (`tz = none` models a naive datetime). -/
structure Datetime where
  wall : Int
  tz : Option Int
deriving DecidableEq, Repr

/-- Embeds `utc_timezone_naive` (print_job.py lines 18-20):
`dt.astimezone(tz=timezone.utc).replace(tzinfo=None)`.  For an aware
datetime the UTC wall clock is `wall - offset`; for a naive datetime Python
assumes the process-local timezone, passed here as `localTz`. -/
def utc_timezone_naive (localTz : Int) (dt : Datetime) : Datetime :=
  { wall := dt.wall - (dt.tz.getD localTz), tz := none }

/-- The fields of a filament record read by the print-job code. -/
structure Filament where
  price : Option ℚ
  weight : Option ℚ
deriving DecidableEq, Repr

/-- The fields of a spool record read by the print-job code; `filament` is
the joined parent filament. -/
structure Spool where
  id : Nat
  price : Option ℚ
  initial_weight : Option ℚ
  filament : Filament
deriving DecidableEq, Repr

/-- A row of the `print_job` table (migration 2026_02_15_1529). -/
structure PrintJob where
  id : Nat
  registered : Datetime
  spool_id : Nat
  name : String
  weight_used : ℚ
  started_at : Option Datetime
  completed_at : Option Datetime
  cost : Option ℚ
  revenue : Option ℚ
  notes : Option String
  external_reference : Option String
deriving DecidableEq, Repr

/-- The database state visible to this module: the spool table (with its
joined filaments) and the print_job table. -/
structure Store where
  spools : List Spool
  print_jobs : List PrintJob
deriving DecidableEq, Repr

/-- The exceptions raised by this module (`spoolman.exceptions`). -/
inductive Err where
  | ItemNotFoundError (msg : String)
deriving DecidableEq, Repr

/-- `EventType` from `spoolman.api.v1.models`. -/
inductive EventType where
  | added
  | updated
  | deleted
deriving DecidableEq, Repr

/-- `PrintJobEvent`: the message pushed to websocket subscribers.  The
`payload` is the snapshot `PrintJob.from_db(print_job)` taken at publish
time. -/
structure PrintJobEvent where
  type : EventType
  resource : String
  payload : Option PrintJob
deriving DecidableEq, Repr

/-- An observable side effect of a database helper, in execution order:
the transaction commit, or a websocket publication to a topic. -/
inductive Action where
  | commit
  | publish (topic : List String) (event : PrintJobEvent)
deriving DecidableEq, Repr

/-- `spool.get_by_id`: look the spool up by id, raising `ItemNotFoundError`
when absent (only the behaviour used by `create` is needed here). -/
def spool_get_by_id (db : Store) (spool_id : Nat) : Except Err Spool :=
  match db.spools.find? (fun s => s.id == spool_id) with
  | some s => Except.ok s
  | none => Except.error (Err.ItemNotFoundError s!"No spool with ID {spool_id} found.")

/-- The first branch of the price-per-gram computation in `create` (lines
50-51): `spool.price / spool.initial_weight` when the spool carries a price
and a positive initial weight. -/
def spool_price_per_gram (s : Spool) : Option ℚ :=
  match s.price, s.initial_weight with
  | some p, some w => if 0 < w then some (p / w) else none
  | _, _ => none

/-- The `elif` branch of the price-per-gram computation in `create` (lines
52-53): `filament.price / filament.weight` when the filament carries a
price and a positive weight. -/
def filament_price_per_gram (f : Filament) : Option ℚ :=
  match f.price, f.weight with
  | some p, some w => if 0 < w then some (p / w) else none
  | _, _ => none

/-- `price_per_gram` as computed by `create` lines 49-53: the spool branch,
falling back to the filament branch. -/
def price_per_gram (s : Spool) : Option ℚ :=
  match spool_price_per_gram s with
  | some ppg => some ppg
  | none => filament_price_per_gram s.filament

/-- The cost derivation of `create` lines 46-56: when no explicit cost was
given and `weight_used > 0`, derive `weight_used * price_per_gram` if a
price per gram is available; otherwise keep the given cost. -/
def derive_cost (cost : Option ℚ) (weight_used : ℚ) (s : Spool) : Option ℚ :=
  if cost = none ∧ 0 < weight_used then
    match price_per_gram s with
    | some ppg => some (weight_used * ppg)
    | none => cost
  else cost

/-- The keyword arguments of `create` (equivalently the validated
`PrintJobParameters` body of the POST endpoint). -/
structure CreateParams where
  spool_id : Nat
  name : String
  weight_used : ℚ
  started_at : Option Datetime := none
  completed_at : Option Datetime := none
  cost : Option ℚ := none
  revenue : Option ℚ := none
  notes : Option String := none
  external_reference : Option String := none
deriving DecidableEq, Repr

/-- The autoincrement primary key assigned at insert: one more than the
largest id in the table. -/
def nextId (db : Store) : Nat :=
  (db.print_jobs.map (fun j => j.id)).foldr max 0 + 1

/-- The try/except wrapper of `print_job_changed` (lines 162-174): the
websocket send may raise (`outcome = .error msg`), but the catch-all
`except Exception` swallows the exception, so the helper always returns
normally. -/
def notify_safe (outcome : Except String Unit) : Except Err Unit :=
  match outcome with
  | Except.ok u => Except.ok u
  | Except.error _ => Except.ok ()

/-- The publication performed by `print_job_changed` (lines 160-174): a
single send to the per-entity topic `("print_job", str(print_job.id))`
carrying the event type and a snapshot of the job. -/
def print_job_changed (pj : PrintJob) (typ : EventType) : Action :=
  Action.publish ["print_job", toString pj.id]
    { type := typ, resource := "print_job", payload := some pj }

/-- `create` (print_job.py lines 23-73): verify the spool exists, normalize
the datetimes, derive the cost, insert the row, commit, then notify.
`localTz` is the process-local timezone used by `astimezone` on naive
inputs, `now` the insertion timestamp, `notifyOutcome` the outcome of the
websocket send attempted by `print_job_changed`.  Returns the new store,
the created record, and the trace of commit/publish actions. -/
def create (localTz : Int) (now : Datetime) (notifyOutcome : Except String Unit)
    (db : Store) (p : CreateParams) :
    Except Err (Store × PrintJob × List Action) :=
  match spool_get_by_id db p.spool_id with
  | Except.error e => Except.error e
  | Except.ok spool_item =>
    let pj : PrintJob :=
      { id := nextId db
        registered := now
        spool_id := spool_item.id
        name := p.name
        weight_used := p.weight_used
        started_at := p.started_at.map (utc_timezone_naive localTz)
        completed_at := p.completed_at.map (utc_timezone_naive localTz)
        cost := derive_cost p.cost p.weight_used spool_item
        revenue := p.revenue
        notes := p.notes
        external_reference := p.external_reference }
    let db2 : Store := { db with print_jobs := db.print_jobs ++ [pj] }
    match notify_safe notifyOutcome with
    | Except.ok _ =>
      Except.ok (db2, pj, [Action.commit, print_job_changed pj EventType.added])
    | Except.error e => Except.error e

/-- The state transition of a create request as seen by the caller: on
failure the session is rolled back and the store is unchanged. -/
def create_state (localTz : Int) (now : Datetime) (notifyOutcome : Except String Unit)
    (db : Store) (p : CreateParams) : Store :=
  match create localTz now notifyOutcome db p with
  | Except.ok (db2, _, _) => db2
  | Except.error _ => db

/-- `get_by_id` (lines 76-85): fetch by primary key, raising
`ItemNotFoundError` when no row matches. -/
def get_by_id (db : Store) (print_job_id : Nat) : Except Err PrintJob :=
  match db.print_jobs.find? (fun j => j.id == print_job_id) with
  | some pj => Except.ok pj
  | none =>
    Except.error (Err.ItemNotFoundError s!"No print job with ID {print_job_id} found.")

/-- Case-insensitive substring test, embedding the SQL
`name ILIKE '%pat%'` filter of `find` (line 110). -/
def ilike_contains_chars (pat : List Char) : List Char → Bool
  | [] => pat.isEmpty
  | c :: t => pat.isPrefixOf (c :: t) || ilike_contains_chars pat t

/-- `name ILIKE '%pat%'` on strings: case-folded substring containment. -/
def ilike_contains (hay pat : String) : Bool :=
  ilike_contains_chars pat.toLower.toList hay.toLower.toList

/-- The `ORDER BY registered DESC` comparison of `find` (line 113): `a`
may precede `b` when `a` was registered no earlier than `b`. -/
def registered_desc (a b : PrintJob) : Bool :=
  b.registered.wall ≤ a.registered.wall

/-- Insert into a sorted list, keeping it sorted under `le`. -/
def insertSorted (le : PrintJob → PrintJob → Bool) (a : PrintJob) :
    List PrintJob → List PrintJob
  | [] => [a]
  | b :: t => if le a b then a :: b :: t else b :: insertSorted le a t

/-- Sorting by repeated insertion: the model of the SQL `ORDER BY`. -/
def sortBy (le : PrintJob → PrintJob → Bool) : List PrintJob → List PrintJob
  | [] => []
  | a :: t => insertSorted le a (sortBy le t)

/-- The query parameters of `find` (lines 88-94). -/
structure FindParams where
  spool_id : Option Nat := none
  name : Option String := none
  limit : Option Nat := none
  offset : Nat := 0
deriving DecidableEq, Repr

/-- The row filter of `find` (lines 106-110): optional equality on
`spool_id` and optional case-insensitive substring match on `name`. -/
def find_filter (q : FindParams) (j : PrintJob) : Bool :=
  (match q.spool_id with
   | some sid => j.spool_id == sid
   | none => true)
  &&
  (match q.name with
   | some n => ilike_contains j.name n
   | none => true)

/-- `find` (lines 88-131): filter, order by `registered` descending; when a
limit is given, take the total count of matching rows first and then apply
offset and limit; otherwise the total count is the number of returned
rows.  Returns `(records, total_count)`. -/
def find (db : Store) (q : FindParams) : List PrintJob × Nat :=
  let filtered := (db.print_jobs.filter (find_filter q))
  let ordered := sortBy registered_desc filtered
  match q.limit with
  | some lim => ((ordered.drop q.offset).take lim, ordered.length)
  | none => (ordered, ordered.length)

/-- The PATCH body after `model_dump(exclude_unset=True)` (api lines
215-226): each field is absent (`none`) or present with its value; for the
nullable columns a present value may itself be null (`some none`). -/
structure UpdateParams where
  spool_id : Option Nat := none
  name : Option String := none
  weight_used : Option ℚ := none
  started_at : Option (Option Datetime) := none
  completed_at : Option (Option Datetime) := none
  cost : Option (Option ℚ) := none
  revenue : Option (Option ℚ) := none
  notes : Option (Option String) := none
  external_reference : Option (Option String) := none
deriving DecidableEq, Repr

/-- The `setattr` loop of `update` (lines 142-146): every key present in
the payload overwrites the attribute, datetime values being passed through
`utc_timezone_naive` first; absent keys are untouched. -/
def apply_update (localTz : Int) (pj : PrintJob) (d : UpdateParams) : PrintJob :=
  { pj with
    spool_id := d.spool_id.getD pj.spool_id
    name := d.name.getD pj.name
    weight_used := d.weight_used.getD pj.weight_used
    started_at :=
      match d.started_at with
      | some v => v.map (utc_timezone_naive localTz)
      | none => pj.started_at
    completed_at :=
      match d.completed_at with
      | some v => v.map (utc_timezone_naive localTz)
      | none => pj.completed_at
    cost := d.cost.getD pj.cost
    revenue := d.revenue.getD pj.revenue
    notes := d.notes.getD pj.notes
    external_reference := d.external_reference.getD pj.external_reference }

/-- `update` (lines 134-149): fetch the job (404 when absent), apply the
payload attribute by attribute, commit, then notify.  No spool lookup and
no cost derivation happen here. -/
def update (localTz : Int) (notifyOutcome : Except String Unit) (db : Store)
    (print_job_id : Nat) (d : UpdateParams) :
    Except Err (Store × PrintJob × List Action) :=
  match get_by_id db print_job_id with
  | Except.error e => Except.error e
  | Except.ok pj =>
    let pj2 := apply_update localTz pj d
    let db2 : Store :=
      { db with
        print_jobs := db.print_jobs.map (fun j => if j.id == print_job_id then pj2 else j) }
    match notify_safe notifyOutcome with
    | Except.ok _ =>
      Except.ok (db2, pj2, [Action.commit, print_job_changed pj2 EventType.updated])
    | Except.error e => Except.error e

/-- `delete` (lines 152-157): fetch the job (404 when absent), notify the
websocket subscribers, and only then delete the row and commit. -/
def delete (notifyOutcome : Except String Unit) (db : Store) (print_job_id : Nat) :
    Except Err (Store × List Action) :=
  match get_by_id db print_job_id with
  | Except.error e => Except.error e
  | Except.ok pj =>
    match notify_safe notifyOutcome with
    | Except.ok _ =>
      let db2 : Store :=
        { db with print_jobs := db.print_jobs.filter (fun j => !(j.id == print_job_id)) }
      Except.ok (db2, [print_job_changed pj EventType.deleted, Action.commit])
    | Except.error e => Except.error e

/-- Modelled from the spec: the websocket manager (`spoolman.ws`, not part
of this excerpt) keeps a registry of (topic, connection) subscriptions —
`connect` under `WS /print-job/{id}` registers the connection under the
topic `("print_job", str(id))` — and `send(topic, event)` delivers the
event to every connection currently subscribed to that exact topic.
Connections are identified here by a number. -/
structure Registry where
  subs : List (List String × Nat)
deriving DecidableEq, Repr

/-- Modelled from the spec: the connections a `send` to `topic` delivers
to — exactly the connections subscribed to that topic. -/
def ws_send_recipients (reg : Registry) (topic : List String) : List Nat :=
  (reg.subs.filter (fun s => s.1 == topic)).map (fun s => s.2)

/-- The connections that receive a given trace action: a publish reaches
the subscribers of its topic; a commit reaches nobody. -/
def delivered (reg : Registry) (a : Action) : List Nat :=
  match a with
  | Action.commit => []
  | Action.publish topic _ => ws_send_recipients reg topic

/-- The ordering property claimed of every mutation trace: every
publication is preceded by a commit. -/
def commit_precedes_publish (tr : List Action) : Prop :=
  ∀ pre topic ev post, tr = pre ++ Action.publish topic ev :: post →
    Action.commit ∈ pre

/-- The spec's data-flow sentence as a proposition over the embedding: in
every successful create, update and delete, the commit precedes the
publication of the change event. -/
def MutationCommitPrecedesPublish : Prop :=
  (∀ localTz now o db p db2 pj tr,
    create localTz now o db p = Except.ok (db2, pj, tr) → commit_precedes_publish tr) ∧
  (∀ localTz o db id0 d db2 pj tr,
    update localTz o db id0 d = Except.ok (db2, pj, tr) → commit_precedes_publish tr) ∧
  (∀ o db id0 db2 tr,
    delete o db id0 = Except.ok (db2, tr) → commit_precedes_publish tr)

/-! Concrete inputs used to instantiate the theorems. -/

/-- A filament with no price data. -/
def exFilament : Filament := { price := none, weight := none }

/-- The spool of the spec's worked example: price 20, initial weight 100. -/
def exSpool : Spool :=
  { id := 1, price := some 20, initial_weight := some 100, filament := exFilament }

/-- A store holding that one spool and no print jobs. -/
def exStore : Store := { spools := [exSpool], print_jobs := [] }

/-- A fixed insertion timestamp. -/
def exNow : Datetime := { wall := 0, tz := none }

/-- The create request of the spec's worked example: weight_used 15.5 and
no explicit cost. -/
def exCreateP : CreateParams :=
  { spool_id := 1, name := "Benchy", weight_used := 31/2 }

/-- A create request with an explicit cost (no derivation fires). -/
def exCreateP2 : CreateParams :=
  { spool_id := 1, name := "Cube", weight_used := 2, cost := some 5 }

/-- A create request referencing a spool id that does not exist. -/
def exCreatePMissing : CreateParams :=
  { spool_id := 42, name := "Ghost", weight_used := 0 }

/-- A create request carrying timezone-aware timestamps. -/
def exCreatePTZ : CreateParams :=
  { spool_id := 1, name := "TZ", weight_used := 0, cost := some 1,
    started_at := some { wall := 100, tz := some 60 },
    completed_at := some { wall := 200, tz := some (-120) } }

/-- The record `create exCreateP2` inserts into `exStore`. -/
def exJob1 : PrintJob :=
  { id := 1, registered := exNow, spool_id := 1, name := "Cube", weight_used := 2,
    started_at := none, completed_at := none, cost := some 5, revenue := none,
    notes := none, external_reference := none }

/-- A second, later-registered job. -/
def exJob2 : PrintJob :=
  { id := 2, registered := { wall := 10, tz := none }, spool_id := 1, name := "Vase",
    weight_used := 3, started_at := none, completed_at := none, cost := none,
    revenue := none, notes := none, external_reference := none }

/-- A store holding the spool and both jobs. -/
def exStoreJobs : Store := { spools := [exSpool], print_jobs := [exJob1, exJob2] }

/-- A store holding a job whose spool table is empty. -/
def exStoreNoSpools : Store := { spools := [], print_jobs := [exJob1] }

/-- A find query with a limit of 1. -/
def exQ : FindParams := { limit := some 1 }

/-- A patch payload carrying only a new name. -/
def exUpd : UpdateParams := { name := some "Renamed" }

/-- A patch payload with no cost but a new spool id (dangling) and a new
weight. -/
def exUpdC10 : UpdateParams := { spool_id := some 99, weight_used := some 3 }

/-- A patch payload carrying timezone-aware timestamps. -/
def exUpdTZ : UpdateParams :=
  { started_at := some (some { wall := 100, tz := some 60 }),
    completed_at := some (some { wall := 50, tz := some 30 }) }

/-- A job with id 5 and one with id 7, for the topic-delivery scenario. -/
def exJob5 : PrintJob :=
  { id := 5, registered := exNow, spool_id := 1, name := "Five", weight_used := 0,
    started_at := none, completed_at := none, cost := none, revenue := none,
    notes := none, external_reference := none }

/-- A job with id 7. -/
def exJob7 : PrintJob :=
  { id := 7, registered := exNow, spool_id := 1, name := "Seven", weight_used := 0,
    started_at := none, completed_at := none, cost := none, revenue := none,
    notes := none, external_reference := none }

/-- A registry with one connection (number 0) subscribed to the per-entity
topic of job 5. -/
def exReg5 : Registry := { subs := [(["print_job", "5"], 0)] }

/-! Helper lemmas. -/

/-- The catch-all `except` of `print_job_changed` swallows every send
failure: `notify_safe` always returns normally. -/
theorem notify_safe_ok (o : Except String Unit) : notify_safe o = Except.ok () := by
  cases o with
  | ok u => rfl
  | error e => rfl

theorem mem_insertSorted (le : PrintJob → PrintJob → Bool) (a x : PrintJob)
    (l : List PrintJob) : x ∈ insertSorted le a l ↔ x = a ∨ x ∈ l := by
  induction l with
  | nil => simp [insertSorted]
  | cons b t ih =>
    rw [insertSorted]
    by_cases h : le a b
    · rw [if_pos h]
      simp [List.mem_cons]
    · rw [if_neg h]
      simp [List.mem_cons, ih]
      tauto

theorem pairwise_insertSorted (le : PrintJob → PrintJob → Bool)
    (htot : ∀ a b, le a b = true ∨ le b a = true)
    (htrans : ∀ a b c, le a b = true → le b c = true → le a c = true)
    (a : PrintJob) (l : List PrintJob)
    (hl : l.Pairwise (fun x y => le x y = true)) :
    (insertSorted le a l).Pairwise (fun x y => le x y = true) := by
  induction l with
  | nil => simp [insertSorted]
  | cons b t ih =>
    rw [List.pairwise_cons] at hl
    obtain ⟨hb, ht⟩ := hl
    rw [insertSorted]
    by_cases h : le a b
    · rw [if_pos h]
      refine List.pairwise_cons.mpr ⟨?_, List.pairwise_cons.mpr ⟨hb, ht⟩⟩
      intro x hx
      rcases List.mem_cons.mp hx with hx | hx
      · exact hx ▸ h
      · exact htrans a b x h (hb x hx)
    · rw [if_neg h]
      refine List.pairwise_cons.mpr ⟨?_, ih ht⟩
      intro x hx
      rcases (mem_insertSorted le a x t).mp hx with hx | hx
      · subst hx
        rcases htot x b with h2 | h2
        · exact absurd h2 h
        · exact h2
      · exact hb x hx

theorem pairwise_sortBy (le : PrintJob → PrintJob → Bool)
    (htot : ∀ a b, le a b = true ∨ le b a = true)
    (htrans : ∀ a b c, le a b = true → le b c = true → le a c = true)
    (l : List PrintJob) :
    (sortBy le l).Pairwise (fun x y => le x y = true) := by
  induction l with
  | nil => simp [sortBy]
  | cons a t ih =>
    rw [sortBy]
    exact pairwise_insertSorted le htot htrans a (sortBy le t) ih

theorem find?_map_replace (l : List PrintJob) (id0 : Nat) (pj pj2 : PrintJob)
    (hfind : l.find? (fun j => j.id == id0) = some pj) (hid : pj2.id = pj.id) :
    (l.map (fun j => if j.id == id0 then pj2 else j)).find? (fun j => j.id == id0)
      = some pj2 := by
  induction l with
  | nil => simp at hfind
  | cons a t ih =>
    by_cases h : a.id == id0
    · rw [List.find?_cons_of_pos (p := fun j : PrintJob => j.id == id0) _ h] at hfind
      have ha : pj = a := by
        injection hfind with h2
        exact h2.symm
      subst ha
      have hpred : pj2.id == id0 := by
        rw [hid]
        exact h
      rw [List.map_cons, if_pos h]
      exact List.find?_cons_of_pos (p := fun j : PrintJob => j.id == id0) _ hpred
    · rw [List.find?_cons_of_neg (p := fun j : PrintJob => j.id == id0) _ h] at hfind
      rw [List.map_cons, if_neg h]
      rw [List.find?_cons_of_neg (p := fun j : PrintJob => j.id == id0) _ h]
      exact ih hfind

/-- C1: when a create request carries no explicit cost and a positive
weight_used, the stored cost is `weight_used * (spool.price /
spool.initial_weight)` if the spool has a price and a positive initial
weight; otherwise `weight_used * (filament.price / filament.weight)` if the
filament has a price and a positive weight; otherwise the cost stays
unset. -/
theorem create_cost_derivation (localTz : Int) (now : Datetime)
    (o : Except String Unit) (db : Store) (p : CreateParams) (s : Spool)
    (hs : spool_get_by_id db p.spool_id = Except.ok s)
    (hc : p.cost = none) (hw : 0 < p.weight_used) :
    ∃ db2 pj tr, create localTz now o db p = Except.ok (db2, pj, tr) ∧
      (∀ sp siw, s.price = some sp → s.initial_weight = some siw → 0 < siw →
        pj.cost = some (p.weight_used * (sp / siw))) ∧
      (spool_price_per_gram s = none →
        ∀ fp fw, s.filament.price = some fp → s.filament.weight = some fw → 0 < fw →
          pj.cost = some (p.weight_used * (fp / fw))) ∧
      (spool_price_per_gram s = none → filament_price_per_gram s.filament = none →
        pj.cost = none) := by
  unfold create
  rw [hs, notify_safe_ok o]
  refine ⟨_, _, _, rfl, ?_, ?_, ?_⟩
  · intro sp siw hp hiw hpos
    simp [derive_cost, hc, hw, price_per_gram, spool_price_per_gram, hp, hiw, hpos]
  · intro hnone fp fw hfp hfw hpos
    simp [derive_cost, hc, hw, price_per_gram, hnone, filament_price_per_gram,
      hfp, hfw, hpos]
  · intro hnone hfnone
    simp [derive_cost, hc, hw, price_per_gram, hnone, hfnone]

/-- C1 witness: the spec's worked example.  Creating with weight_used 15.5
and no cost against the spool with price 20 and initial weight 100 stores
cost 15.5 * (20 / 100) = 3.1. -/
theorem create_cost_derivation_witness :
    (0 : ℚ) < exCreateP.weight_used ∧
    ∃ db2 pj tr,
      create 0 exNow (Except.ok ()) exStore exCreateP = Except.ok (db2, pj, tr) ∧
      pj.cost = some (31 / 10) := by
  refine ⟨by norm_num [exCreateP], ?_⟩
  obtain ⟨db2, pj, tr, h1, h2, _, _⟩ :=
    create_cost_derivation 0 exNow (Except.ok ()) exStore exCreateP exSpool rfl rfl
      (by norm_num [exCreateP])
  refine ⟨db2, pj, tr, h1, ?_⟩
  rw [h2 20 100 rfl rfl (by norm_num)]
  norm_num [exCreateP]

/-- C2: creating against a spool id that matches no spool fails with
`ItemNotFoundError` and leaves the store unchanged. -/
theorem create_missing_spool (localTz : Int) (now : Datetime)
    (o : Except String Unit) (db : Store) (p : CreateParams)
    (hs : db.spools.find? (fun s => s.id == p.spool_id) = none) :
    (∃ msg, create localTz now o db p = Except.error (Err.ItemNotFoundError msg)) ∧
    create_state localTz now o db p = db := by
  have h : spool_get_by_id db p.spool_id
      = Except.error (Err.ItemNotFoundError s!"No spool with ID {p.spool_id} found.") := by
    unfold spool_get_by_id
    rw [hs]
  constructor
  · refine ⟨s!"No spool with ID {p.spool_id} found.", ?_⟩
    unfold create
    rw [h]
  · unfold create_state create
    rw [h]

/-- C2 witness: creating with spool id 42 against a store whose only spool
has id 1 fails NotFound and changes nothing. -/
theorem create_missing_spool_witness :
    (∃ msg, create 0 exNow (Except.ok ()) exStore exCreatePMissing
      = Except.error (Err.ItemNotFoundError msg)) ∧
    create_state 0 exNow (Except.ok ()) exStore exCreatePMissing = exStore :=
  create_missing_spool 0 exNow (Except.ok ()) exStore exCreatePMissing rfl

/-- C3: a partial update changes exactly the fields present in the payload:
every absent field keeps its prior value, every present field is set (for
the datetime fields after UTC normalization), both in the returned record
and in the stored row; rows with other ids survive untouched. -/
theorem update_partial_fields (localTz : Int) (o : Except String Unit) (db : Store)
    (id0 : Nat) (d : UpdateParams) (pj : PrintJob)
    (hpj : get_by_id db id0 = Except.ok pj) :
    ∃ db2 pj2 tr, update localTz o db id0 d = Except.ok (db2, pj2, tr) ∧
      pj2.id = pj.id ∧ pj2.registered = pj.registered ∧
      (d.spool_id = none → pj2.spool_id = pj.spool_id) ∧
      (d.name = none → pj2.name = pj.name) ∧
      (d.weight_used = none → pj2.weight_used = pj.weight_used) ∧
      (d.started_at = none → pj2.started_at = pj.started_at) ∧
      (d.completed_at = none → pj2.completed_at = pj.completed_at) ∧
      (d.cost = none → pj2.cost = pj.cost) ∧
      (d.revenue = none → pj2.revenue = pj.revenue) ∧
      (d.notes = none → pj2.notes = pj.notes) ∧
      (d.external_reference = none → pj2.external_reference = pj.external_reference) ∧
      (∀ v, d.spool_id = some v → pj2.spool_id = v) ∧
      (∀ v, d.name = some v → pj2.name = v) ∧
      (∀ v, d.weight_used = some v → pj2.weight_used = v) ∧
      (∀ v, d.started_at = some v →
        pj2.started_at = v.map (utc_timezone_naive localTz)) ∧
      (∀ v, d.completed_at = some v →
        pj2.completed_at = v.map (utc_timezone_naive localTz)) ∧
      (∀ v, d.cost = some v → pj2.cost = v) ∧
      (∀ v, d.revenue = some v → pj2.revenue = v) ∧
      (∀ v, d.notes = some v → pj2.notes = v) ∧
      (∀ v, d.external_reference = some v → pj2.external_reference = v) ∧
      db2.print_jobs.find? (fun j => j.id == id0) = some pj2 ∧
      (∀ j ∈ db.print_jobs, j.id ≠ id0 → j ∈ db2.print_jobs) := by
  have hfind : db.print_jobs.find? (fun j => j.id == id0) = some pj := by
    unfold get_by_id at hpj
    cases hf : db.print_jobs.find? (fun j => j.id == id0) with
    | some x =>
      rw [hf] at hpj
      injection hpj with h2
      rw [h2]
    | none =>
      rw [hf] at hpj
      exact absurd hpj (by simp)
  unfold update
  rw [hpj, notify_safe_ok o]
  refine ⟨_, _, _, rfl, ?_⟩
  refine ⟨rfl, rfl, ?_⟩
  constructor
  · intro h
    simp [apply_update, h]
  constructor
  · intro h
    simp [apply_update, h]
  constructor
  · intro h
    simp [apply_update, h]
  constructor
  · intro h
    simp [apply_update, h]
  constructor
  · intro h
    simp [apply_update, h]
  constructor
  · intro h
    simp [apply_update, h]
  constructor
  · intro h
    simp [apply_update, h]
  constructor
  · intro h
    simp [apply_update, h]
  constructor
  · intro h
    simp [apply_update, h]
  constructor
  · intro v h
    simp [apply_update, h]
  constructor
  · intro v h
    simp [apply_update, h]
  constructor
  · intro v h
    simp [apply_update, h]
  constructor
  · intro v h
    simp [apply_update, h]
  constructor
  · intro v h
    simp [apply_update, h]
  constructor
  · intro v h
    simp [apply_update, h]
  constructor
  · intro v h
    simp [apply_update, h]
  constructor
  · intro v h
    simp [apply_update, h]
  constructor
  · intro v h
    simp [apply_update, h]
  constructor
  · exact find?_map_replace db.print_jobs id0 pj (apply_update localTz pj d) hfind rfl
  · intro j hj hne
    have hmem : (if j.id == id0 then apply_update localTz pj d else j)
        ∈ db.print_jobs.map
            (fun j => if j.id == id0 then apply_update localTz pj d else j) :=
      List.mem_map_of_mem _ hj
    rw [if_neg (by simpa using hne)] at hmem
    exact hmem

/-- C3 witness: patching only the name of job 1 leaves every other field
and every other row unchanged. -/
theorem update_partial_fields_witness :
    ∃ db2 pj2 tr,
      update 0 (Except.ok ()) exStoreJobs 1 exUpd = Except.ok (db2, pj2, tr) ∧
      pj2.id = exJob1.id ∧ pj2.registered = exJob1.registered ∧
      (exUpd.spool_id = none → pj2.spool_id = exJob1.spool_id) ∧
      (exUpd.name = none → pj2.name = exJob1.name) ∧
      (exUpd.weight_used = none → pj2.weight_used = exJob1.weight_used) ∧
      (exUpd.started_at = none → pj2.started_at = exJob1.started_at) ∧
      (exUpd.completed_at = none → pj2.completed_at = exJob1.completed_at) ∧
      (exUpd.cost = none → pj2.cost = exJob1.cost) ∧
      (exUpd.revenue = none → pj2.revenue = exJob1.revenue) ∧
      (exUpd.notes = none → pj2.notes = exJob1.notes) ∧
      (exUpd.external_reference = none →
        pj2.external_reference = exJob1.external_reference) ∧
      (∀ v, exUpd.spool_id = some v → pj2.spool_id = v) ∧
      (∀ v, exUpd.name = some v → pj2.name = v) ∧
      (∀ v, exUpd.weight_used = some v → pj2.weight_used = v) ∧
      (∀ v, exUpd.started_at = some v →
        pj2.started_at = v.map (utc_timezone_naive 0)) ∧
      (∀ v, exUpd.completed_at = some v →
        pj2.completed_at = v.map (utc_timezone_naive 0)) ∧
      (∀ v, exUpd.cost = some v → pj2.cost = v) ∧
      (∀ v, exUpd.revenue = some v → pj2.revenue = v) ∧
      (∀ v, exUpd.notes = some v → pj2.notes = v) ∧
      (∀ v, exUpd.external_reference = some v → pj2.external_reference = v) ∧
      db2.print_jobs.find? (fun j => j.id == 1) = some pj2 ∧
      (∀ j ∈ exStoreJobs.print_jobs, j.id ≠ 1 → j ∈ db2.print_jobs) :=
  update_partial_fields 0 (Except.ok ()) exStoreJobs 1 exUpd exJob1 rfl

/-- C10: an update whose payload has no cost field leaves the stored cost
unchanged, even when the payload changes weight_used or spool_id — no cost
derivation fires on update — and a payload spool id is stored without any
check that such a spool exists (the theorem assumes nothing about
`db.spools`). -/
theorem update_no_cost_derivation (localTz : Int) (o : Except String Unit)
    (db : Store) (id0 : Nat) (d : UpdateParams) (pj : PrintJob)
    (hpj : get_by_id db id0 = Except.ok pj) (hcost : d.cost = none) :
    ∃ db2 pj2 tr, update localTz o db id0 d = Except.ok (db2, pj2, tr) ∧
      pj2.cost = pj.cost ∧
      (∀ sid, d.spool_id = some sid → pj2.spool_id = sid) := by
  unfold update
  rw [hpj, notify_safe_ok o]
  refine ⟨_, _, _, rfl, ?_, ?_⟩
  · simp [apply_update, hcost]
  · intro sid h
    simp [apply_update, h]

/-- C10 witness: patching job 1 with a new weight and a spool id (99) that
exists in no spool table — the store has no spools at all — succeeds and
keeps the cost. -/
theorem update_no_cost_derivation_witness :
    ∃ db2 pj2 tr,
      update 0 (Except.ok ()) exStoreNoSpools 1 exUpdC10 = Except.ok (db2, pj2, tr) ∧
      pj2.cost = exJob1.cost ∧
      (∀ sid, exUpdC10.spool_id = some sid → pj2.spool_id = sid) :=
  update_no_cost_derivation 0 (Except.ok ()) exStoreNoSpools 1 exUpdC10 exJob1 rfl rfl

/-- C4: with a limit, `find` returns at most `limit` records and a total
count at least the number of returned records; without a limit the total
count equals the number of returned records. -/
theorem find_limit_count (db : Store) (q : FindParams) :
    (∀ lim, q.limit = some lim →
      (find db q).1.length ≤ lim ∧ (find db q).1.length ≤ (find db q).2) ∧
    (q.limit = none → (find db q).2 = (find db q).1.length) := by
  constructor
  · intro lim hl
    simp only [find, hl]
    constructor
    · simp
    · simp only [List.length_take, List.length_drop]
      omega
  · intro hl
    simp only [find, hl]

/-- C4 witness: a query with limit 1 over a two-job store. -/
theorem find_limit_count_witness :
    (find exStoreJobs exQ).1.length ≤ 1 ∧
    (find exStoreJobs exQ).1.length ≤ (find exStoreJobs exQ).2 :=
  (find_limit_count exStoreJobs exQ).1 1 rfl

/-- C5: the records returned by `find` are ordered by registration
timestamp descending — every record registered no later than each record
before it. -/
theorem find_ordered_desc (db : Store) (q : FindParams) :
    (find db q).1.Pairwise
      (fun a b => b.registered.wall ≤ a.registered.wall) := by
  have htot : ∀ a b : PrintJob,
      registered_desc a b = true ∨ registered_desc b a = true := by
    intro a b
    simp only [registered_desc, decide_eq_true_eq]
    omega
  have htrans : ∀ a b c : PrintJob, registered_desc a b = true →
      registered_desc b c = true → registered_desc a c = true := by
    intro a b c h1 h2
    simp only [registered_desc, decide_eq_true_eq] at h1 h2 ⊢
    omega
  have hsorted := pairwise_sortBy registered_desc htot htrans
    (db.print_jobs.filter (find_filter q))
  have himp : ∀ l : List PrintJob,
      l.Pairwise (fun x y => registered_desc x y = true) →
      l.Pairwise (fun a b => b.registered.wall ≤ a.registered.wall) := by
    intro l hl
    refine hl.imp ?_
    intro a b h
    simpa [registered_desc, decide_eq_true_eq] using h
  simp only [find]
  cases hq : q.limit with
  | some lim =>
    simp only
    refine List.Pairwise.sublist ?_ (himp _ hsorted)
    exact ((sortBy registered_desc _).drop q.offset).take_sublist lim
      |>.trans ((sortBy registered_desc _).drop_sublist q.offset)
  | none => exact himp _ hsorted

/-- C6: every change event is published only to the per-entity topic
`("print_job", str(id))`: a connection receives the event exactly when it
is subscribed to that topic, so a subscriber to `("print_job", "5")`
receives events for job 5 but none for job 7. -/
theorem print_job_changed_per_entity_topic (reg : Registry) (pj : PrintJob)
    (typ : EventType) (c : Nat) :
    (print_job_changed pj typ = Action.publish ["print_job", toString pj.id]
      { type := typ, resource := "print_job", payload := some pj }) ∧
    (c ∈ delivered reg (print_job_changed pj typ) ↔
      (["print_job", toString pj.id], c) ∈ reg.subs) ∧
    0 ∈ delivered exReg5 (print_job_changed exJob5 typ) ∧
    0 ∉ delivered exReg5 (print_job_changed exJob7 typ) := by
  refine ⟨rfl, ?_, ?_, ?_⟩
  · simp only [print_job_changed, delivered]
    unfold ws_send_recipients
    rw [List.mem_map]
    constructor
    · rintro ⟨⟨t, c2⟩, hx, rfl⟩
      rw [List.mem_filter] at hx
      have ht : t = ["print_job", toString pj.id] := by simpa using hx.2
      subst ht
      exact hx.1
    · intro h
      refine ⟨(["print_job", toString pj.id], c), ?_, rfl⟩
      rw [List.mem_filter]
      exact ⟨h, by simp⟩
  · show 0 ∈ ws_send_recipients exReg5 ["print_job", toString exJob5.id]
    decide
  · show ¬(0 ∈ ws_send_recipients exReg5 ["print_job", toString exJob7.id])
    decide

/-- C7: a failure of the websocket send never escapes `print_job_changed`
and never changes the result of the originating mutation: every mutation
returns the same value whatever the delivery outcome. -/
theorem notify_failure_harmless (localTz : Int) (now : Datetime) (db : Store)
    (p : CreateParams) (id0 : Nat) (d : UpdateParams)
    (o1 o2 : Except String Unit) :
    notify_safe o1 = Except.ok () ∧
    create localTz now o1 db p = create localTz now o2 db p ∧
    update localTz o1 db id0 d = update localTz o2 db id0 d ∧
    delete o1 db id0 = delete o2 db id0 := by
  refine ⟨notify_safe_ok o1, ?_, ?_, ?_⟩
  · unfold create
    rw [notify_safe_ok o1, notify_safe_ok o2]
  · unfold update
    rw [notify_safe_ok o1, notify_safe_ok o2]
  · unfold delete
    rw [notify_safe_ok o1, notify_safe_ok o2]

/-- C8 counterexample: it is not the case that every mutation commits
before publishing — `delete` publishes the deleted-event before removing
the row and committing, as deleting job 1 from the concrete two-job store
shows. -/
theorem delete_publishes_before_commit : ¬ MutationCommitPrecedesPublish := by
  intro h
  have hdel : delete (Except.ok ()) exStoreJobs 1
      = Except.ok ({ spools := [exSpool], print_jobs := [exJob2] },
          [print_job_changed exJob1 EventType.deleted, Action.commit]) := rfl
  have hcp := h.2.2 (Except.ok ()) exStoreJobs 1 _ _ hdel
  have hmem := hcp [] ["print_job", toString exJob1.id]
    { type := EventType.deleted, resource := "print_job", payload := some exJob1 }
    [Action.commit] rfl
  simp at hmem

/-- C8 amended: create and update commit the mutation before publishing
the change event, but delete publishes the deleted-event first and only
then deletes the row and commits. -/
theorem commit_publish_order (localTz : Int) (now : Datetime)
    (o : Except String Unit) (dbc dbu dbd : Store) (p : CreateParams)
    (idu idd : Nat) (d : UpdateParams) :
    (∀ db2 pj tr, create localTz now o dbc p = Except.ok (db2, pj, tr) →
      tr = [Action.commit, print_job_changed pj EventType.added]) ∧
    (∀ db2 pj tr, update localTz o dbu idu d = Except.ok (db2, pj, tr) →
      tr = [Action.commit, print_job_changed pj EventType.updated]) ∧
    (∀ db2 tr pj, delete o dbd idd = Except.ok (db2, tr) →
      get_by_id dbd idd = Except.ok pj →
      tr = [print_job_changed pj EventType.deleted, Action.commit]) := by
  refine ⟨?_, ?_, ?_⟩
  · intro db2 pj tr h
    unfold create at h
    cases hs : spool_get_by_id dbc p.spool_id with
    | error e =>
      rw [hs] at h
      exact absurd h (by simp)
    | ok s =>
      rw [hs, notify_safe_ok o] at h
      simp only [Except.ok.injEq, Prod.mk.injEq] at h
      obtain ⟨-, h2, h3⟩ := h
      rw [← h3, ← h2]
  · intro db2 pj tr h
    unfold update at h
    cases hg : get_by_id dbu idu with
    | error e =>
      rw [hg] at h
      exact absurd h (by simp)
    | ok pj0 =>
      rw [hg, notify_safe_ok o] at h
      simp only [Except.ok.injEq, Prod.mk.injEq] at h
      obtain ⟨-, h2, h3⟩ := h
      rw [← h3, ← h2]
  · intro db2 tr pj h hg
    unfold delete at h
    rw [hg, notify_safe_ok o] at h
    simp only [Except.ok.injEq, Prod.mk.injEq] at h
    rw [← h.2]

/-- C8 amended witness: creating job 1 yields the trace
commit-then-publish; deleting job 1 yields the trace publish-then-commit. -/
theorem commit_publish_order_witness :
    create 0 exNow (Except.ok ()) exStore exCreateP2
      = Except.ok ({ spools := [exSpool], print_jobs := [exJob1] }, exJob1,
          [Action.commit, print_job_changed exJob1 EventType.added]) ∧
    delete (Except.ok ()) exStoreJobs 1
      = Except.ok ({ spools := [exSpool], print_jobs := [exJob2] },
          [print_job_changed exJob1 EventType.deleted, Action.commit]) ∧
    [print_job_changed exJob1 EventType.deleted, Action.commit]
      = [print_job_changed exJob1 EventType.deleted, Action.commit] := by
  refine ⟨rfl, rfl, ?_⟩
  exact (commit_publish_order 0 exNow (Except.ok ()) exStore exStoreJobs exStoreJobs
    exCreateP2 1 1 exUpd).2.2
    { spools := [exSpool], print_jobs := [exJob2] }
    [print_job_changed exJob1 EventType.deleted, Action.commit] exJob1 rfl rfl

/-- C9: a timezone-aware started_at or completed_at supplied to create or
update is stored as the UTC instant (wall clock minus UTC offset) with the
timezone information removed. -/
theorem timestamps_normalized_utc (localTz : Int) (now : Datetime)
    (o : Except String Unit) (db : Store) (p : CreateParams) (s : Spool)
    (id0 : Nat) (d : UpdateParams) (pj : PrintJob)
    (hs : spool_get_by_id db p.spool_id = Except.ok s)
    (hpj : get_by_id db id0 = Except.ok pj) :
    ∃ dbc pjc trc dbu pju tru,
      create localTz now o db p = Except.ok (dbc, pjc, trc) ∧
      update localTz o db id0 d = Except.ok (dbu, pju, tru) ∧
      (∀ dt off, p.started_at = some dt → dt.tz = some off →
        pjc.started_at = some { wall := dt.wall - off, tz := none }) ∧
      (∀ dt off, p.completed_at = some dt → dt.tz = some off →
        pjc.completed_at = some { wall := dt.wall - off, tz := none }) ∧
      (∀ dt off, d.started_at = some (some dt) → dt.tz = some off →
        pju.started_at = some { wall := dt.wall - off, tz := none }) ∧
      (∀ dt off, d.completed_at = some (some dt) → dt.tz = some off →
        pju.completed_at = some { wall := dt.wall - off, tz := none }) := by
  unfold create update
  rw [hs, hpj, notify_safe_ok o]
  refine ⟨_, _, _, _, _, _, rfl, rfl, ?_, ?_, ?_, ?_⟩
  · intro dt off h1 h2
    simp [h1, utc_timezone_naive, h2]
  · intro dt off h1 h2
    simp [h1, utc_timezone_naive, h2]
  · intro dt off h1 h2
    simp [apply_update, h1, utc_timezone_naive, h2]
  · intro dt off h1 h2
    simp [apply_update, h1, utc_timezone_naive, h2]

/-- C9 witness: creating with started_at wall 100 at offset +60 stores
wall 40 naive; updating with completed_at wall 50 at offset +30 stores
wall 20 naive. -/
theorem timestamps_normalized_utc_witness :
    ∃ dbc pjc trc dbu pju tru,
      create 0 exNow (Except.ok ()) exStoreJobs exCreatePTZ
        = Except.ok (dbc, pjc, trc) ∧
      update 0 (Except.ok ()) exStoreJobs 1 exUpdTZ = Except.ok (dbu, pju, tru) ∧
      (∀ dt off, exCreatePTZ.started_at = some dt → dt.tz = some off →
        pjc.started_at = some { wall := dt.wall - off, tz := none }) ∧
      (∀ dt off, exCreatePTZ.completed_at = some dt → dt.tz = some off →
        pjc.completed_at = some { wall := dt.wall - off, tz := none }) ∧
      (∀ dt off, exUpdTZ.started_at = some (some dt) → dt.tz = some off →
        pju.started_at = some { wall := dt.wall - off, tz := none }) ∧
      (∀ dt off, exUpdTZ.completed_at = some (some dt) → dt.tz = some off →
        pju.completed_at = some { wall := dt.wall - off, tz := none }) :=
  timestamps_normalized_utc 0 exNow (Except.ok ()) exStoreJobs exCreatePTZ exSpool
    1 exUpdTZ exJob1 rfl rfl

end Spoolman
